import Mathlib

/-!
Shallow embedding of the brAIn-loop worker's command-execution governor
(`internal/bash`), session manager (`internal/loop`), idempotency ledger
(`internal/database/lifecycle.go`) and the MCP bash handler
(`BashHandler.HandleExecuteBash`).

Conventions of the embedding:
* Go strings are modelled as Lean `String`s (lists of characters); the
  commands of interest are ASCII, so Go's byte-based `len` coincides with
  `String.length`.
* SQL rows are Lean structures with `Option` for nullable columns; a table is
  an association list keyed by its primary key.  Column `DEFAULT`s from
  `Registry.initTables` are applied on insert.
* Go `float64` scores and temperatures are modelled in exact hundredths as
  naturals (0.3 ↦ 30, 0.05 ↦ 5, 1.0 ↦ 100, …).  Every constant involved
  (0.3, 0.2, 0.1, 0.05) is an exact multiple of 0.05, the partial sums stay
  far from any comparison threshold's float rounding error, and ratios are
  compared cross-multiplied, so every branch the code takes on its floats is
  reproduced exactly by the integer comparisons used here.
* `time.Now()` is passed in explicitly as an integer count of unix seconds
  (`now : Int`), matching the second-granularity arithmetic of the source.
* SHA-256 (`calculateHash`) and the regex engine behind
  `MatchesDangerousPattern` are external capabilities: they are passed as
  function parameters (`H : String → String`, `matcher : String → Bool`)
  rather than re-implemented, and theorems hold for every instantiation.
* Functions that return a Go `error` are modelled with `Except String`.
-/

namespace BrainLoop

/-! ### Generic helpers: association lists and substring search -/

/-- First value bound to key `h` in an association list (SQL `WHERE pk = ?`). -/
def assocFind {α : Type} : List (String × α) → String → Option α
  | [], _ => none
  | (k, v) :: rest, h => if k = h then some v else assocFind rest h

/-- Apply `f` to the row keyed `hash` (SQL `UPDATE … WHERE pk = ?`); rows with
other keys are untouched, and a missing key is a no-op (0 rows updated). -/
def updateRow {α : Type} : List (String × α) → String → (α → α) → List (String × α)
  | [], _, _ => []
  | (k, v) :: rest, hash, f =>
    (if k = hash then (k, f v) else (k, v)) :: updateRow rest hash f

/-- Does `pat` occur at the head of `s`? -/
def listStartsWith : List Char → List Char → Bool
  | [], _ => true
  | _ :: _, [] => false
  | a :: as, b :: bs => a == b && listStartsWith as bs

/-- Does `pat` occur anywhere in `s`?  (Go `strings.Contains`.) -/
def listHasSub (pat : List Char) : List Char → Bool
  | [] => listStartsWith pat []
  | s@(_ :: rest) => listStartsWith pat s || listHasSub pat rest

/-- Go `strings.Contains s pat`. -/
def containsSubstr (s pat : String) : Bool :=
  listHasSub pat.data s.data

/-- Go `strings.Count s "|"` for a single-character separator: the number of
occurrences of `c` in `s`. -/
def countChar (s : String) (c : Char) : Nat :=
  (s.data.filter (fun d => d == c)).length

/-- Does some suffix of `s` satisfy `p`?  Used to run an anchored pattern at
every position, i.e. an unanchored regex match. -/
def existsAt (p : List Char → Bool) : List Char → Bool
  | [] => p []
  | s@(_ :: rest) => p s || existsAt p rest

/-- Whitespace class of Go's regexp `\s` (`[\t\n\f\r ]`). -/
def isWsChar (c : Char) : Bool :=
  c == ' ' || c == '\t' || c == '\n' || c == '\x0c' || c == '\r'

/-- Drop leading regexp-`\s` whitespace. -/
def skipWs : List Char → List Char
  | [] => []
  | c :: rest => if isWsChar c then skipWs rest else c :: rest

/-! ### Command validator (`internal/bash/validator.go`) -/

/-- The command words guarded by the `$(\s*word` injection patterns of
`Validator.Validate`. -/
def injectionKeywords : List String :=
  ["wget", "curl", "nc", "netcat", "sh", "bash", "zsh", "python",
   "perl", "ruby", "node", "php"]

/-- Anchored form of the injection regexes `\$\(\s*kw`: a literal `$(`,
regexp whitespace, then one of the keywords. -/
def injectionAt (s : List Char) : Bool :=
  match s with
  | '$' :: '(' :: rest => injectionKeywords.any (fun kw => listStartsWith kw.data (skipWs rest))
  | _ => false

/-- Unanchored match of any `\$\(\s*kw` injection pattern. -/
def hasInjection (s : List Char) : Bool :=
  existsAt injectionAt s

/-- The backquote character, code point 96. -/
def backquoteChar : Char := Char.ofNat 96

/-- The backquote injection regex matches a backquote, any non-backquote run,
then another backquote — equivalently, the command holds two backquotes. -/
def hasBackquotePair (s : List Char) : Bool :=
  (s.filter (fun c => c == backquoteChar)).length ≥ 2

/-- Anchored `w1\s+w2`: word `w1`, at least one regexp whitespace, word `w2`.
Both decode-pipeline regexes of `Validate` reduce to this shape (their second
alternative contains the first as a factor). -/
def wordWsWordAt (w1 w2 : List Char) (s : List Char) : Bool :=
  listStartsWith w1 s &&
    (match s.drop w1.length with
     | [] => false
     | c :: rest => isWsChar c && listStartsWith w2 (skipWs (c :: rest)))

/-- `Validator.Validate`: static pre-execution checks, in source order.
`maxLength` is the `NewValidator` constant 4096.  The returned message only
records which check fired; callers branch solely on ok/error. -/
def Validate (command : String) : Except String Unit :=
  if command.length > 4096 then
    .error "command exceeds maximum length of 4096 characters"
  else if command.data.any (fun c => c.toNat == 0) then
    .error "command contains null bytes"
  else if hasInjection command.data || hasBackquotePair command.data then
    .error "potential injection detected"
  else if containsSubstr command "/dev/tcp" || containsSubstr command "/dev/udp" then
    .error "network redirection not allowed"
  else if containsSubstr command "sudo" || containsSubstr command "su " then
    .error "privilege escalation commands not allowed"
  else if existsAt (wordWsWordAt "base64".data "-d".data) command.data then
    .error "base64 decoding detected"
  else if existsAt (wordWsWordAt "xxd".data "-r".data) command.data then
    .error "hex decoding detected"
  else
    .ok ()

/-- `Validator.CalculateRiskScore` in exact hundredths: base 0.3 ↦ 30,
destructive +0.3 ↦ 30, permissions +0.2 ↦ 20, more than two pipes +0.1 ↦ 10,
redirection +0.05 ↦ 5, clamped at 1.0 ↦ 100.  Each category adds at most once
(the Go loops `break` on the first hit). -/
def CalculateRiskScore (command : String) : Nat :=
  let s0 := 30
  let s1 := if ["rm ", "dd ", "mkfs", "format", "fdisk"].any
      (fun c => containsSubstr command c) then s0 + 30 else s0
  let s2 := if ["chmod", "chown", "chgrp"].any
      (fun c => containsSubstr command c) then s1 + 20 else s1
  let s3 := if countChar command '|' > 2 then s2 + 10 else s2
  let s4 := if [">>", ">", "<", "2>", "2>>"].any
      (fun c => containsSubstr command c) then s3 + 5 else s3
  if s4 > 100 then 100 else s4

end BrainLoop

deriving instance DecidableEq for Except

namespace BrainLoop

/-! ### Command registry (`internal/bash/registry.go`)

One row of `commands_registry` per unique command text, keyed by the SHA-256
of the text.  Nullable columns are `Option`; the `DEFAULT`s below are the ones
declared in `Registry.initTables`. -/

structure CommandRow where
  command_text : String
  execution_count : Nat
  success_count : Nat
  failure_count : Nat
  avg_duration_ms : Nat
  last_executed : Option Int
  first_seen : Int
  created_at : Int
  updated_at : Int
  current_policy : Option String
  user_override : Option String
  policy_reason : Option String
  policy_last_updated : Option Int
  promoted_at : Option Int
  duplicate_check_enabled : Option Bool
  duplicate_threshold_ms : Option Int
  last_100_timestamps : Option String
deriving Repr, DecidableEq

/-- The `commands_registry` table: an association list keyed by command hash. -/
abbrev RegistryState := List (String × CommandRow)

/-- The column defaults of `initTables` applied to the insert performed by
`GetOrCreateCommand`, which supplies only hash, text and the three
timestamps: counters 0, `current_policy` `'unknown'`,
`duplicate_check_enabled` 1, `duplicate_threshold_ms` 1000, everything else
NULL. -/
def freshRow (text : String) (now : Int) : CommandRow where
  command_text := text
  execution_count := 0
  success_count := 0
  failure_count := 0
  avg_duration_ms := 0
  last_executed := none
  first_seen := now
  created_at := now
  updated_at := now
  current_policy := some "unknown"
  user_override := none
  policy_reason := none
  policy_last_updated := none
  promoted_at := none
  duplicate_check_enabled := some true
  duplicate_threshold_ms := some 1000
  last_100_timestamps := none

/-- Whitespace class of Go's `strings.TrimSpace` (the ASCII part). -/
def isSpaceGo (c : Char) : Bool :=
  c == ' ' || c == '\t' || c == '\n' || c == '\r' || c == '\x0b' || c == '\x0c'

/-- Drop leading `TrimSpace` whitespace. -/
def dropSpaces : List Char → List Char
  | [] => []
  | c :: rest => if isSpaceGo c then dropSpaces rest else c :: rest

/-- Go `strings.TrimSpace` on a character list. -/
def trimChars (s : List Char) : List Char :=
  (dropSpaces (dropSpaces s.reverse).reverse)

/-- Go `strings.Split(s, ";")` on a character list (for non-empty `s`). -/
def splitSemis : List Char → List (List Char)
  | [] => [[]]
  | c :: rest =>
    let r := splitSemis rest
    if c == ';' then [] :: r
    else
      match r with
      | [] => [[c]]
      | t :: ts => (c :: t) :: ts

/-- Decimal digits to a natural, `none` on any non-digit. -/
def parseDigits : List Char → Nat → Option Nat
  | [], acc => some acc
  | c :: rest, acc =>
    if c.isDigit then parseDigits rest (acc * 10 + (c.toNat - 48)) else none

/-- Go `strconv.ParseInt(s, 10, 64)`: optional sign then at least one digit,
nothing else.  (The int64 overflow bound is not modelled; the values in play
are unix seconds.) -/
def parseIntToken : List Char → Option Int
  | [] => none
  | '-' :: [] => none
  | '-' :: rest => (parseDigits rest 0).map (fun n => -(n : Int))
  | '+' :: [] => none
  | '+' :: rest => (parseDigits rest 0).map (fun n => (n : Int))
  | s => (parseDigits s 0).map (fun n => (n : Int))

/-- `parseTimestamps`: split on `;`, trim each token, ignore tokens that do
not parse as integers; the empty string parses to the empty list. -/
def parseTimestamps (s : String) : List Int :=
  if s = "" then []
  else (splitSemis s.data).filterMap (fun part => parseIntToken (trimChars part))

/-- `formatTimestamps`: decimal rendering joined by `;`. -/
def formatTimestamps (timestamps : List Int) : String :=
  if timestamps = [] then ""
  else String.intercalate ";" (timestamps.map toString)

/-- `Registry.GetOrCreateCommand`: idempotent insert keyed by `H text` where
`H` stands for SHA-256 (`calculateHash`). -/
def getOrCreateCommand (H : String → String) (st : RegistryState)
    (text : String) (now : Int) : String × RegistryState :=
  let hash := H text
  match assocFind st hash with
  | some _ => (hash, st)
  | none => (hash, (hash, freshRow text now) :: st)

/-- `Registry.GetPolicy`: the `user_override` when non-NULL and non-empty,
otherwise `current_policy` when non-NULL, otherwise the literal `"unknown"`;
an error when no row has this hash. -/
def getPolicy (st : RegistryState) (hash : String) : Except String String :=
  match assocFind st hash with
  | none => .error "failed to query policy"
  | some row =>
    if row.user_override.getD "" ≠ "" then .ok (row.user_override.getD "")
    else
      match row.current_policy with
      | some c => .ok c
      | none => .ok "unknown"

/-- `Registry.UpdateExecution`.  The Go code first `Scan`s
`last_100_timestamps` into a plain (non-nullable) `string`: when the column
is NULL — as it is on every row `GetOrCreateCommand` ever created, since no
other write touches it first — `database/sql` fails the scan and the whole
update returns an error before writing anything. -/
def updateExecution (st : RegistryState) (hash : String) (exitCode : Int)
    (durationMs : Nat) (now : Int) : Except String RegistryState :=
  match assocFind st hash with
  | none => .error "failed to query command stats"
  | some row =>
    match row.last_100_timestamps with
    | none => .error "failed to query command stats: converting NULL to string is unsupported"
    | some tsStr =>
      let ts0 := parseTimestamps tsStr ++ [now]
      let ts := if ts0.length > 100 then ts0.drop (ts0.length - 100) else ts0
      let executionCount := row.execution_count + 1
      let successCount := if exitCode == 0 then row.success_count + 1 else row.success_count
      let failureCount := if exitCode == 0 then row.failure_count else row.failure_count + 1
      let newAvg := (row.avg_duration_ms * (executionCount - 1) + durationMs) / executionCount
      .ok (updateRow st hash (fun r =>
        { r with execution_count := executionCount, success_count := successCount,
                 failure_count := failureCount, avg_duration_ms := newAvg,
                 last_executed := some now,
                 last_100_timestamps := some (formatTimestamps ts),
                 updated_at := now }))

/-- `Registry.PromotePolicy`.  The method opens a transaction and then runs
`SELECT command_text FROM commands_registry WHERE command_hash = ? FOR
UPDATE`; SQLite's grammar has no `FOR UPDATE` clause, so preparing that
query fails with `near "FOR": syntax error` and the method always returns
the wrapped lock error — before reading the row, before
`ValidatePromotionSecurity` (the dangerous-pattern re-check, whose `matcher`
parameter is kept for the signature), and before writing anything.  No
command is ever promoted. -/
def promotePolicy (_matcher : String → Bool) (_st : RegistryState)
    (_hash _newPolicy _reason : String) (_now : Int) :
    Except String RegistryState :=
  .error "failed to lock command for update: near \"FOR\": syntax error"

/-- `Registry.SetPolicy`: writes `user_override` when `isOverride`, otherwise
`current_policy`; neither branch touches `promoted_at` nor re-checks the
dangerous patterns.  An UPDATE on a missing hash is a silent no-op. -/
def setPolicy (st : RegistryState) (hash policy reason : String)
    (isOverride : Bool) (now : Int) : RegistryState :=
  if isOverride then
    updateRow st hash (fun r =>
      { r with user_override := some policy, policy_reason := some reason,
               policy_last_updated := some now, updated_at := now })
  else
    updateRow st hash (fun r =>
      { r with current_policy := some policy, policy_reason := some reason,
               policy_last_updated := some now, updated_at := now })

/-- `Registry.GetDuplicationCheck`: NULL `duplicate_check_enabled` defaults
to true, NULL `duplicate_threshold_ms` to 1000, and the last parsed
timestamp (0 when none) is the time of the previous invocation. -/
def getDuplicationCheck (st : RegistryState) (hash : String) :
    Except String (Int × Int × Bool) :=
  match assocFind st hash with
  | none => .error "failed to query duplication check"
  | some row =>
    let enabled := row.duplicate_check_enabled.getD true
    let thresholdMs := row.duplicate_threshold_ms.getD 1000
    let lastTimestamp : Int :=
      match row.last_100_timestamps with
      | none => 0
      | some s =>
        if s = "" then 0
        else
          match (parseTimestamps s).reverse with
          | [] => 0
          | t :: _ => t
    .ok (lastTimestamp, thresholdMs, enabled)

/-! ### Policy engine (`internal/bash/validator.go`, `PolicyManager`) -/

/-- The fields of `CommandStats` that the policy rules read, as computed by
`Registry.GetCommandStats`: the timestamp series parsed from
`last_100_timestamps`, the risk score recomputed from the command text, the
NULL policy collapsing to the empty string. -/
structure CommandStats where
  commandText : String
  executionCount : Nat
  successCount : Nat
  failureCount : Nat
  currentPolicy : String
  riskScore : Nat
  executionTimestamps : List Int
  lastExecutionTimeUnix : Int
deriving Repr, DecidableEq

/-- Unix value of Go's zero `time.Time` (January 1, year 1): the value of
`stats.LastExecutionTime` when no timestamp has been recorded, for which
`time.Since` exceeds every promotion window. -/
def goZeroTimeUnix : Int := -62135596800

/-- `Registry.GetCommandStats`, restricted to the fields the policy engine
consumes. -/
def getCommandStats (st : RegistryState) (hash : String) :
    Except String CommandStats :=
  match assocFind st hash with
  | none => .error "failed to query command stats"
  | some row =>
    let tsList := match row.last_100_timestamps with
      | none => []
      | some s => parseTimestamps s
    let lastExec := match tsList.reverse with
      | [] => goZeroTimeUnix
      | t :: _ => t
    .ok { commandText := row.command_text
          executionCount := row.execution_count
          successCount := row.success_count
          failureCount := row.failure_count
          currentPolicy := row.current_policy.getD ""
          riskScore := if row.command_text ≠ "" then CalculateRiskScore row.command_text else 0
          executionTimestamps := tsList
          lastExecutionTimeUnix := lastExec }

/-- Sum of the consecutive gaps of a timestamp series, in seconds (the
`totalInterval` accumulator of the two detectors). -/
def sumConsecutiveDiffs : List Int → Int
  | [] => 0
  | [_] => 0
  | a :: b :: rest => (b - a) + sumConsecutiveDiffs (b :: rest)

/-- `PolicyManager.DetectMonitoringPattern`: at least 10 timestamps whose
mean gap is below 5 seconds (mean < 5 ⟺ sum < 5·count, count > 0). -/
def detectMonitoringPattern (timestamps : List Int) : Bool :=
  if timestamps.length < 10 then false
  else sumConsecutiveDiffs timestamps < 5 * ((timestamps.length : Int) - 1)

/-- `PolicyManager.DetectRareCommandPattern`: at least 2 timestamps whose
mean gap exceeds 3600 seconds. -/
def detectRareCommandPattern (timestamps : List Int) : Bool :=
  if timestamps.length < 2 then false
  else sumConsecutiveDiffs timestamps > 3600 * ((timestamps.length : Int) - 1)

/-- `PolicyManager.ShouldPromoteToAutoApprove`, checks in source order:
policy is exactly `ask`; at least 20 executions; success rate at least 0.95
(cross-multiplied); risk score strictly below 0.5 (the "additional
conservative check" — note: 0.5, not the 0.7 of the caller's early gate);
last execution within the past 30 days (`30*24*3600` seconds). -/
def shouldPromoteToAutoApprove (stats : CommandStats) (now : Int) : Bool :=
  if stats.currentPolicy ≠ "ask" then false
  else if stats.executionCount < 20 then false
  else if 100 * stats.successCount < 95 * stats.executionCount then false
  else if stats.riskScore ≥ 50 then false
  else if now - stats.lastExecutionTimeUnix > 30 * 24 * 3600 then false
  else true

/-- The column names `Registry.initTables` declares for `commands_registry`. -/
def registryColumns : List String :=
  ["command_hash", "command_text", "execution_count", "success_count",
   "failure_count", "avg_duration_ms", "last_executed", "first_seen",
   "created_at", "updated_at", "current_policy", "user_override",
   "policy_reason", "policy_last_updated", "promoted_at",
   "duplicate_check_enabled", "duplicate_threshold_ms", "last_100_timestamps"]

/-- `Registry.UpdatePolicy` for a given set of column names.  SQLite refuses
to prepare an UPDATE that names a column absent from the table, so the call
fails whenever an unknown column is requested — which is the case for both
call sites in `CheckAutoEvolution` (`duplicate_check`, `policy_type`,
`duplicate_threshold` are not columns; the stored ones are
`duplicate_check_enabled` and `duplicate_threshold_ms`).  When every column
exists, the source appends its bind arguments in the order (values…, hash,
now) against placeholders (values…, updated_at, WHERE command_hash): the
WHERE clause then compares the key against the timestamp and matches no row,
leaving the state unchanged. -/
def updatePolicy (st : RegistryState) (cols : List String) :
    Except String RegistryState :=
  if cols.all (fun c => registryColumns.contains c) then .ok st
  else .error "no such column"

/-- `PolicyManager.CheckAutoEvolution`: stats snapshot, the ≥ 0.7 risk gate,
then the three rules in order, each returning early on error.  The pair is
(returned error, registry state after the call).  Whenever rule 1 fires,
`promotePolicy` fails on its `FOR UPDATE` syntax error (see its doc) and the
call returns the wrapped error with the state unchanged. -/
def checkAutoEvolution (matcher : String → Bool) (st : RegistryState)
    (hash : String) (now : Int) : Except String Unit × RegistryState :=
  match getCommandStats st hash with
  | .error e => (.error ("failed to get command stats: " ++ e), st)
  | .ok stats =>
    if stats.riskScore ≥ 70 then (.ok (), st)
    else
      match (if shouldPromoteToAutoApprove stats now then
               promotePolicy matcher st hash "auto_approve"
                 "Auto: 20+ exec, 95%+ success" now
             else .ok st) with
      | .error e => (.error ("failed to promote policy to auto_approve: " ++ e), st)
      | .ok st1 =>
        if detectMonitoringPattern stats.executionTimestamps
            && decide (stats.executionCount ≥ 50) then
          match updatePolicy st1 ["duplicate_check", "policy_type"] with
          | .error e => (.error ("failed to update monitoring policy: " ++ e), st1)
          | .ok st2 => ruleThree st2 stats
        else ruleThree st1 stats
where
  /-- Rule 3: the rare-command threshold bump, whose `UpdatePolicy` call also
  names a nonexistent column. -/
  ruleThree (st' : RegistryState) (stats : CommandStats) :
      Except String Unit × RegistryState :=
    if detectRareCommandPattern stats.executionTimestamps then
      match updatePolicy st' ["duplicate_threshold"] with
      | .error e => (.error ("failed to update rare command policy: " ++ e), st')
      | .ok st2 => (.ok (), st2)
    else (.ok (), st')

/-! ### The `execute_bash` handler (`BashHandler.HandleExecuteBash`)

The model covers the handler up to its decision: whether the sandboxed
executor is invoked (`.execute`), or the call stops with a validation error,
a `duplicate_warning` body or a `pending_validation` body.  The
post-execution bookkeeping (`UpdateExecution`, `CheckAutoEvolution`) is
modelled by its separate functions above. -/

inductive BashResponse where
  /-- Parameter or validator rejection: the handler returns a Go error. -/
  | invalid (msg : String)
  /-- A registry query failed: the handler returns a Go error. -/
  | registryError (msg : String)
  /-- `{status: duplicate_warning, command, seconds_since_last}` — the
  executor is not invoked; `seconds_since_last` is the integer difference of
  unix-second timestamps. -/
  | duplicateWarning (command : String) (secondsSinceLast : Int)
  /-- `{status: pending_validation, command, policy, risk_score}` — the
  executor is not invoked. -/
  | pendingValidation (command policy : String) (riskScore : Nat)
  /-- The handler reaches `executeCommand`: the sandboxed executor runs the
  command, with `policy` reported as `policy_used`. -/
  | execute (policy : String)
deriving Repr, DecidableEq

/-- `HandleExecuteBash(command, force_execute)`: empty-command check,
`Validator.Validate`, risk score, `GetOrCreateCommand`, `GetPolicy`, then
the branch ladder of the source: `auto_approve` or `force_execute` executes;
`ask`/`ask_warning` run the duplicate check (a failed
`GetDuplicationCheck` is only logged, leaving the zero values, whose
`enabled = false` skips the check) and otherwise report
`pending_validation`; **every other policy value falls through to
`executeCommand`** — there is no `user_override = never` branch. -/
def handleExecuteBash (H : String → String) (st : RegistryState)
    (command : String) (forceExecute : Bool) (now : Int) :
    BashResponse × RegistryState :=
  if command = "" then (.invalid "command cannot be empty", st)
  else
    match Validate command with
    | .error e => (.invalid ("command validation failed: " ++ e), st)
    | .ok _ =>
      let riskScore := CalculateRiskScore command
      let res := getOrCreateCommand H st command now
      let cmdHash := res.1
      let st1 := res.2
      match getPolicy st1 cmdHash with
      | .error e => (.registryError ("failed to get policy: " ++ e), st1)
      | .ok policy =>
        if policy = "auto_approve" || forceExecute then (.execute policy, st1)
        else if policy = "ask" || policy = "ask_warning" then
          let dup := match getDuplicationCheck st1 cmdHash with
            | .error _ => (0, 0, false)
            | .ok v => v
          let lastTimestamp := dup.1
          let thresholdMs := dup.2.1
          let enabled := dup.2.2
          if enabled && decide (lastTimestamp > 0)
              && decide ((now - lastTimestamp) * 1000 < thresholdMs) then
            (.duplicateWarning command (now - lastTimestamp), st1)
          else
            (.pendingValidation command policy riskScore, st1)
        else (.execute policy, st1)

/-! ### Idempotency ledger and session manager
(`internal/database/lifecycle.go`, `internal/loop/manager.go`) -/

/-- A row of `processed_log` (`hash` is the primary key of the table). -/
structure ProcessedRow where
  operation : String
  timestamp : Int
  result_json : String
deriving Repr, DecidableEq

/-- A row of `session_blocks`. -/
structure BlockRow where
  session_id : String
  description : String
  type : String
  target : String
  code : Option String
  iterations : Nat
  status : String
  generated_at : Int
  last_refined_at : Option Int
  committed_at : Option Int
deriving Repr, DecidableEq

/-- A row of `block_refinements` (temperature in hundredths: 0.3 ↦ 30). -/
structure RefinementRow where
  block_id : String
  feedback : String
  temperature : Nat
  refined_code : String
  created_at : Int
deriving Repr, DecidableEq

/-- The lifecycle database state the session manager touches, together with
the external side effects `Commit` performs: `fileWrites` logs each
`os.WriteFile(target, finalCode)` (newest first) and `sqlExecs` each SQL
batch executed against a target database. -/
structure LoopState where
  blocks : List (String × BlockRow)
  refinements : List RefinementRow
  processed_log : List (String × ProcessedRow)
  fileWrites : List (String × String)
  sqlExecs : List (String × String)
deriving Repr, DecidableEq

/-- `LifecycleDB.IsProcessed`: does `processed_log` hold the hash? -/
def isProcessed (st : LoopState) (hash : String) : Bool :=
  (assocFind st.processed_log hash).isSome

/-- `LifecycleDB.MarkProcessed`: a plain `INSERT INTO processed_log` — on a
hash already present the primary key rejects the insert and the call returns
the constraint error; the stored row is left as it was. -/
def markProcessed (st : LoopState) (hash operation resultJSON : String)
    (now : Int) : Except String LoopState :=
  match assocFind st.processed_log hash with
  | some _ => .error "UNIQUE constraint failed: processed_log.hash"
  | none =>
    .ok { st with processed_log :=
            (hash, ⟨operation, now, resultJSON⟩) :: st.processed_log }

/-- `LifecycleDB.UpdateBlockCode`: sets `code`, increments `iterations`,
stamps `last_refined_at`; a missing block id updates no row. -/
def updateBlockCode (st : LoopState) (blockID code : String) (now : Int) :
    LoopState :=
  { st with blocks := updateRow st.blocks blockID (fun b =>
      { b with code := some code, iterations := b.iterations + 1,
               last_refined_at := some now }) }

/-- `LifecycleDB.CommitBlock`: sets `status = 'committed'` and
`committed_at`. -/
def commitBlock (st : LoopState) (blockID : String) (now : Int) : LoopState :=
  { st with blocks := updateRow st.blocks blockID (fun b =>
      { b with status := "committed", committed_at := some now }) }

/-- `LifecycleDB.AddRefinement`. -/
def addRefinement (st : LoopState) (blockID feedback refinedCode : String)
    (temperature : Nat) (now : Int) : LoopState :=
  { st with refinements :=
      ⟨blockID, feedback, temperature, refinedCode, now⟩ :: st.refinements }

/-- The prompt `Manager.Refine` builds from the original description, the
current code and the audit feedback. -/
def refinedPrompt (description code feedback : String) : String :=
  "Original requirement: " ++ description ++ "\n\nCurrent code:\n" ++ code ++
    "\n\nFeedback: " ++ feedback ++ "\n\nGenerate improved code addressing the feedback."

/-- `Manager.Refine(session_id, block_id, feedback)`.  `gen prompt type
temperature` abstracts `Manager.generateCode` (the remote completion
capability); temperatures are in hundredths (refine runs at 0.3 ↦ 30).
Returns the refined code; the block's `code` and `iterations` are updated. -/
def refine (gen : String → String → Nat → String) (st : LoopState)
    (sessionID blockID feedback : String) (now : Int) :
    Except String String × LoopState :=
  match assocFind st.blocks blockID with
  | none => (.error "failed to retrieve block", st)
  | some block =>
    if block.session_id ≠ sessionID then
      (.error "block does not belong to session", st)
    else
      let prompt := refinedPrompt block.description (block.code.getD "") feedback
      let refinedCode := gen prompt block.type 30
      let st1 := addRefinement st blockID feedback refinedCode 30 now
      let st2 := updateBlockCode st1 blockID refinedCode now
      (.ok refinedCode, st2)

/-- The `result_json` recorded by `Manager.Commit`: Go's `json.Marshal` of a
string map renders the keys in sorted order (block_id, output_path, type). -/
def commitResultJSON (blockID outputPath btype : String) : String :=
  "\x7b\"block_id\":\"" ++ blockID ++ "\",\"output_path\":\"" ++ outputPath ++
    "\",\"type\":\"" ++ btype ++ "\"\x7d"

/-- What `Manager.Commit` returns on success. -/
structure CommitResponseData where
  block : BlockRow
  outputPath : String
deriving Repr, DecidableEq

/-- The per-type side effect of `Manager.Commit`: for `sql` blocks, execute
the generated SQL against the block's `target` database (modelled as an
entry in `sqlExecs`; the transaction rollback on SQL errors is outside the
embedding), and for `go`/`python`/`code` blocks, `os.WriteFile(target,
finalCode)`; any other type is rejected. -/
def commitSideEffect (st : LoopState) (block : BlockRow) (finalCode : String) :
    Except String (String × LoopState) :=
  if block.type = "sql" then
    .ok (block.target, { st with sqlExecs := (block.target, finalCode) :: st.sqlExecs })
  else if block.type = "go" ∨ block.type = "python" ∨ block.type = "code" then
    .ok (block.target, { st with fileWrites := (block.target, finalCode) :: st.fileWrites })
  else
    .error ("unsupported block type: " ++ block.type)

/-- The tail of `Manager.Commit` after the successful ledger write:
`CommitBlock`, the final `UpdateBlockCode`, and the re-read of the committed
block for the response. -/
def commitFinalize (st2 : LoopState) (blockID finalCode outputPath : String)
    (now : Int) : Except String CommitResponseData × LoopState :=
  let st3 := commitBlock st2 blockID now
  let st4 := updateBlockCode st3 blockID finalCode now
  match assocFind st4.blocks blockID with
  | none => (.error "failed to retrieve committed block", st4)
  | some committed => (.ok ⟨committed, outputPath⟩, st4)

/-- `Manager.Commit(session_id, block_id)`: fetch the block, regenerate a
final version at temperature 0.1 ↦ 10 **from the block's description alone**,
apply the side effect, and only then compute
`hash = H(session_id ++ block_id ++ final_code)` and call `MarkProcessed`.
There is no prior `IsProcessed` check, so a failing `MarkProcessed` aborts
the call *after* the side effect has been applied a further time. -/
def commit (gen : String → String → Nat → String) (H : String → String)
    (st : LoopState) (sessionID blockID : String) (now : Int) :
    Except String CommitResponseData × LoopState :=
  match assocFind st.blocks blockID with
  | none => (.error "failed to retrieve block", st)
  | some block =>
    if block.session_id ≠ sessionID then
      (.error "block does not belong to session", st)
    else
      let finalCode := gen block.description block.type 10
      match commitSideEffect st block finalCode with
      | .error e => (.error e, st)
      | .ok (outputPath, st1) =>
        let hash := H (sessionID ++ blockID ++ finalCode)
        match markProcessed st1 hash "commit"
            (commitResultJSON blockID outputPath block.type) now with
        | .error e => (.error ("failed to mark processed: " ++ e), st1)
        | .ok st2 => commitFinalize st2 blockID finalCode outputPath now

/-! ### Operation sequences over the registry (for the auto-approve
invariant) -/

/-- The registry-mutating operations of the governor's auto-evolution path,
plus the operator's `user_override` writes (`SetPolicy` with
`isOverride = true`). -/
inductive RegOp where
  | getOrCreate (text : String) (now : Int)
  | update (hash : String) (exitCode : Int) (durationMs : Nat) (now : Int)
  | promote (hash newPolicy reason : String) (now : Int)
  | autoEvolve (hash : String) (now : Int)
  | overrideSet (hash policy reason : String) (now : Int)

/-- The registry state after one operation; an operation that returns an
error leaves the state it had already produced (for `autoEvolve`, the state
component of `checkAutoEvolution`, which keeps a committed promotion). -/
def applyRegOp (matcher : String → Bool) (H : String → String)
    (st : RegistryState) : RegOp → RegistryState
  | .getOrCreate text now => (getOrCreateCommand H st text now).2
  | .update hash exitCode durationMs now =>
    match updateExecution st hash exitCode durationMs now with
    | .ok st' => st'
    | .error _ => st
  | .promote hash newPolicy reason now =>
    match promotePolicy matcher st hash newPolicy reason now with
    | .ok st' => st'
    | .error _ => st
  | .autoEvolve hash now => (checkAutoEvolution matcher st hash now).2
  | .overrideSet hash policy reason now => setPolicy st hash policy reason true now

/-- Folding a whole operation sequence over a registry state. -/
def applyRegOps (matcher : String → Bool) (H : String → String)
    (st : RegistryState) : List RegOp → RegistryState
  | [] => st
  | op :: rest => applyRegOps matcher H (applyRegOp matcher H st op) rest

/-- The §8 row invariant: an `auto_approve` row carries a `promoted_at` and
its text clears the dangerous-pattern set. -/
def RowOk (matcher : String → Bool) (row : CommandRow) : Prop :=
  row.current_policy = some "auto_approve" →
    row.promoted_at ≠ none ∧ matcher row.command_text = false

/-- The §8 invariant over a whole registry state. -/
def RegInvariant (matcher : String → Bool) (st : RegistryState) : Prop :=
  ∀ h row, assocFind st h = some row → RowOk matcher row

/-! ### Helper lemmas -/

lemma assocFind_updateRow {α : Type} (st : List (String × α)) (hash h : String)
    (f : α → α) :
    assocFind (updateRow st hash f) h =
      if h = hash then (assocFind st h).map f else assocFind st h := by
  induction st with
  | nil => by_cases hh : h = hash <;> simp [updateRow, assocFind, hh]
  | cons p rest ih =>
    obtain ⟨k, v⟩ := p
    show assocFind ((if k = hash then (k, f v) else (k, v)) :: updateRow rest hash f) h = _
    by_cases hk : k = hash
    · rw [if_pos hk]
      show (if k = h then some (f v) else assocFind (updateRow rest hash f) h) = _
      by_cases hh : k = h
      · have hhh : h = hash := hh ▸ hk
        rw [if_pos hh, if_pos hhh,
          show assocFind ((k, v) :: rest) h = some v from by simp [assocFind, hh]]
        rfl
      · have hhh : ¬h = hash := fun hx => hh (by rw [hk, ← hx])
        rw [if_neg hh, if_neg hhh, ih, if_neg hhh]
        simp [assocFind, hh]
    · rw [if_neg hk]
      show (if k = h then some v else assocFind (updateRow rest hash f) h) = _
      by_cases hh : k = h
      · have hhh : ¬h = hash := fun hx => hk (hh.trans hx)
        rw [if_pos hh, if_neg hhh]
        simp [assocFind, hh]
      · rw [if_neg hh, ih]
        by_cases hhh : h = hash
        · rw [if_pos hhh, if_pos hhh]
          have : assocFind ((k, v) :: rest) h = assocFind rest h := by simp [assocFind, hh]
          rw [this]
        · rw [if_neg hhh, if_neg hhh]
          simp [assocFind, hh]

lemma assocFind_cons_cases {α : Type} {k h : String} {v row : α}
    {rest : List (String × α)} (hfind : assocFind ((k, v) :: rest) h = some row) :
    row = v ∨ assocFind rest h = some row := by
  by_cases hk : k = h
  · left
    simpa [assocFind, hk] using hfind.symm
  · right
    simpa [assocFind, hk] using hfind

lemma existsAt_cons (p : List Char → Bool) (a : Char) (l : List Char) :
    existsAt p (a :: l) = (p (a :: l) || existsAt p l) := rfl

lemma listHasSub_cons (pat : List Char) (a : Char) (l : List Char) :
    listHasSub pat (a :: l) = (listStartsWith pat (a :: l) || listHasSub pat l) := rfl

lemma existsAt_replicate_false (p : List Char → Bool) (c : Char)
    (h : ∀ m, p (List.replicate m c) = false) :
    ∀ n, existsAt p (List.replicate n c) = false := by
  intro n
  induction n with
  | zero => simpa using h 0
  | succ k ih =>
    rw [List.replicate_succ, existsAt_cons, ← List.replicate_succ, h (k + 1), ih]
    rfl

lemma listStartsWith_replicate_false (d : Char) (rest : List Char) (c : Char)
    (hne : (d == c) = false) :
    ∀ m, listStartsWith (d :: rest) (List.replicate m c) = false := by
  intro m
  cases m with
  | zero => rfl
  | succ k =>
    rw [List.replicate_succ]
    show ((d == c) && _) = false
    rw [hne]
    rfl

lemma listHasSub_replicate_false (pat : List Char) (c : Char)
    (h : ∀ m, listStartsWith pat (List.replicate m c) = false) :
    ∀ n, listHasSub pat (List.replicate n c) = false := by
  intro n
  induction n with
  | zero => simpa [listHasSub] using h 0
  | succ k ih =>
    rw [List.replicate_succ, listHasSub_cons, ← List.replicate_succ, h (k + 1), ih]
    rfl

lemma any_replicate_false (p : Char → Bool) (c : Char) (h : p c = false) :
    ∀ n, (List.replicate n c).any p = false := by
  intro n
  induction n with
  | zero => rfl
  | succ k ih =>
    rw [List.replicate_succ]
    show (p c || _) = false
    rw [h, ih]
    rfl

lemma filter_replicate_false (p : Char → Bool) (c : Char) (h : p c = false) :
    ∀ n, (List.replicate n c).filter p = [] := by
  intro n
  induction n with
  | zero => rfl
  | succ k ih =>
    rw [List.replicate_succ, List.filter_cons, h]
    simpa using ih

lemma injectionAt_replicate_a : ∀ m, injectionAt (List.replicate m 'a') = false := by
  intro m
  cases m with
  | zero => rfl
  | succ k => rw [List.replicate_succ]; rfl

/-- A string of `n ≤ 4096` letters `a` trips none of the validator checks. -/
lemma validate_replicate_a {n : Nat} (hn : n ≤ 4096) :
    Validate (String.mk (List.replicate n 'a')) = .ok () := by
  have hdata : (String.mk (List.replicate n 'a')).data = List.replicate n 'a' := rfl
  have hlen : (String.mk (List.replicate n 'a')).length = n := by
    show (List.replicate n 'a').length = n
    simp
  have hnul : ∀ m, (List.replicate m 'a').any (fun c => c.toNat == 0) = false :=
    fun m => any_replicate_false _ 'a' rfl m
  have hinj : ∀ m, hasInjection (List.replicate m 'a') = false :=
    existsAt_replicate_false injectionAt 'a' injectionAt_replicate_a
  have hbq : ∀ m, hasBackquotePair (List.replicate m 'a') = false := by
    intro m
    show decide _ = false
    rw [filter_replicate_false (fun c => c == backquoteChar) 'a' rfl m]
    rfl
  have htcp : ∀ m, listHasSub "/dev/tcp".data (List.replicate m 'a') = false :=
    listHasSub_replicate_false _ 'a' (fun m => by cases m <;> rfl)
  have hudp : ∀ m, listHasSub "/dev/udp".data (List.replicate m 'a') = false :=
    listHasSub_replicate_false _ 'a' (fun m => by cases m <;> rfl)
  have hsudo : ∀ m, listHasSub "sudo".data (List.replicate m 'a') = false :=
    listHasSub_replicate_false _ 'a' (fun m => by cases m <;> rfl)
  have hsu : ∀ m, listHasSub "su ".data (List.replicate m 'a') = false :=
    listHasSub_replicate_false _ 'a' (fun m => by cases m <;> rfl)
  have hb64 : ∀ m, existsAt (wordWsWordAt "base64".data "-d".data)
      (List.replicate m 'a') = false :=
    existsAt_replicate_false _ 'a' (fun m => by cases m <;> rfl)
  have hxxd : ∀ m, existsAt (wordWsWordAt "xxd".data "-r".data)
      (List.replicate m 'a') = false :=
    existsAt_replicate_false _ 'a' (fun m => by cases m <;> rfl)
  unfold Validate
  rw [if_neg (by rw [hlen]; omega)]
  simp only [containsSubstr, hdata, hnul n, hinj n, hbq n, htcp n, hudp n,
    hsudo n, hsu n, hb64 n, hxxd n, Bool.or_self, Bool.or_false]
  simp

/-! ### Fixtures: concrete registry and session states used by the
counterexamples and witnesses -/

/-- A registered command whose operator override is `never`. -/
def neverOverrideRow : CommandRow :=
  { freshRow "echo hi" 0 with user_override := some "never" }

/-- An `ask` command with 20/20 successes, a recent execution, and risk score
0.6 (`rm x` hits the destructive +0.3). -/
def midRiskAskRow : CommandRow :=
  { freshRow "rm x" 0 with
      current_policy := some "ask"
      execution_count := 20
      success_count := 20
      last_100_timestamps := some "100" }

/-- The same statistics with risk score 0.3 (`ls -la`). -/
def lowRiskAskRow : CommandRow :=
  { freshRow "ls -la" 0 with
      current_policy := some "ask"
      execution_count := 20
      success_count := 20
      last_100_timestamps := some "100" }

/-- More helper lemmas: how the policy engine's pieces evaluate. -/

lemma ruleThree_preserves_state (st' : RegistryState) (stats : CommandStats) :
    (checkAutoEvolution.ruleThree st' stats).2 = st' := by
  unfold checkAutoEvolution.ruleThree
  cases hrare : detectRareCommandPattern stats.executionTimestamps
  · rfl
  · rfl

/-! ### Claim theorems -/

/-- C9 (counterexample): the claim says `validate` fails on a carriage
return or line feed, but `Validator.Validate` has no such check: commands
containing LF or CR pass it. -/
theorem validate_accepts_cr_lf :
    "echo x\n".data.contains '\n' = true ∧ Validate "echo x\n" = .ok ()
    ∧ "echo x\r".data.contains '\r' = true ∧ Validate "echo x\r" = .ok () := by
  decide

/-- C9 (amended): `Validator.Validate` fails on any command containing a NUL
byte, passes an otherwise-clean command of length exactly 4096, and fails at
length 4097; carriage returns and line feeds are *not* rejected (that check
lives only in the executor's separate `validateCommand`). -/
theorem validate_nul_and_length_bounds :
    (∀ command : String, command.data.any (fun c => c.toNat == 0) = true →
        ∃ e, Validate command = Except.error e)
    ∧ Validate (String.mk (List.replicate 4096 'a')) = .ok ()
    ∧ Validate (String.mk (List.replicate 4097 'a')) =
        .error "command exceeds maximum length of 4096 characters" := by
  refine ⟨?_, validate_replicate_a (by norm_num), ?_⟩
  · intro command h
    unfold Validate
    by_cases hl : command.length > 4096
    · rw [if_pos hl]
      exact ⟨_, rfl⟩
    · rw [if_neg hl, if_pos h]
      exact ⟨_, rfl⟩
  · unfold Validate
    rw [if_pos]
    show (List.replicate 4097 'a').length > 4096
    simp only [List.length_replicate]
    norm_num

/-- C9 (witness): the NUL-rejection branch of the amended theorem at the
concrete command `rm\x00-rf`. -/
theorem validate_nul_witness :
    ∃ e, Validate "rm\x00-rf" = Except.error e :=
  validate_nul_and_length_bounds.1 "rm\x00-rf" (by decide)

/-- C6 (counterexample): for a freshly created row, `GetPolicy` returns
`unknown`, not the `ask` default the claim states. -/
theorem getPolicy_fresh_row_is_unknown_not_ask :
    getPolicy ((getOrCreateCommand (fun _ => "h") [] "cat file.txt" 3).2) "h"
      = .ok "unknown"
    ∧ getPolicy ((getOrCreateCommand (fun _ => "h") [] "cat file.txt" 3).2) "h"
      ≠ .ok "ask" := by
  decide

/-- C6 (amended): `GetPolicy` returns `user_override` when set and non-empty,
otherwise `current_policy` when non-NULL, otherwise the literal `unknown` —
and a freshly registered row answers `unknown`, because `initTables` defaults
`current_policy` to `'unknown'`. -/
theorem getPolicy_precedence_and_unknown_default :
    (∀ (H : String → String) (st : RegistryState) (text : String) (now : Int),
        assocFind st (H text) = none →
        getPolicy (getOrCreateCommand H st text now).2 (H text) = .ok "unknown")
    ∧ (∀ (st : RegistryState) (hash : String) (row : CommandRow) (o : String),
        assocFind st hash = some row → row.user_override = some o → o ≠ "" →
        getPolicy st hash = .ok o)
    ∧ (∀ (st : RegistryState) (hash : String) (row : CommandRow) (c : String),
        assocFind st hash = some row → row.user_override = none →
        row.current_policy = some c → getPolicy st hash = .ok c)
    ∧ (∀ (st : RegistryState) (hash : String) (row : CommandRow),
        assocFind st hash = some row → row.user_override = none →
        row.current_policy = none → getPolicy st hash = .ok "unknown") := by
  refine ⟨?_, ?_, ?_, ?_⟩
  · intro H st text now hnone
    simp [getOrCreateCommand, hnone, getPolicy, assocFind, freshRow]
  · intro st hash row o hfind hov ho
    simp [getPolicy, hfind, hov, ho]
  · intro st hash row c hfind hov hcur
    simp [getPolicy, hfind, hov, hcur]
  · intro st hash row hfind hov hcur
    simp [getPolicy, hfind, hov, hcur]

/-- C6 (witness): the fresh-row branch of the amended theorem at a concrete
registry. -/
theorem getPolicy_unknown_default_witness :
    getPolicy (getOrCreateCommand (fun _ => "h") [] "cat file.txt" 3).2 "h"
      = .ok "unknown" :=
  getPolicy_precedence_and_unknown_default.1 (fun _ => "h") [] "cat file.txt" 3
    (by decide)

/-- C1 (code bug): the spec demands that a command with
`user_override = never` is never launched and the call fails, but
`HandleExecuteBash` has no `never` branch: `GetPolicy` returns the override
verbatim, `never` is neither `auto_approve` nor `ask`/`ask_warning`, and the
final fall-through hands the command to the sandboxed executor — with
`force_execute` false or true alike. -/
theorem never_override_still_executes :
    (handleExecuteBash (fun _ => "h") [("h", neverOverrideRow)] "echo hi" false 5).1
      = .execute "never"
    ∧ (handleExecuteBash (fun _ => "h") [("h", neverOverrideRow)] "echo hi" true 5).1
      = .execute "never" := by
  decide

/-- C4: with `force_execute = false` and a resolved policy outside
auto_approve/ask/ask_warning — such as the `unknown` every new row gets by
default — `HandleExecuteBash` falls through to the executor at once, with no
pending_validation response and no duplicate check. -/
theorem nonstandard_policy_executes_immediately
    (H : String → String) (st : RegistryState) (command : String) (now : Int)
    (policy : String)
    (hcmd : ¬command = "")
    (hval : Validate command = .ok ())
    (hpol : getPolicy (getOrCreateCommand H st command now).2
              (getOrCreateCommand H st command now).1 = .ok policy)
    (h1 : ¬policy = "auto_approve") (h2 : ¬policy = "ask")
    (h3 : ¬policy = "ask_warning") :
    handleExecuteBash H st command false now =
      (.execute policy, (getOrCreateCommand H st command now).2) := by
  unfold handleExecuteBash
  simp only [if_neg hcmd, hval, hpol, Bool.or_false, decide_eq_true_eq]
  rw [if_neg h1, if_neg (by simp [h2, h3])]

/-- C4 (witness): a fresh command (`unknown` policy) is executed
immediately. -/
theorem nonstandard_policy_witness :
    handleExecuteBash (fun _ => "h") [] "ls" false 7 =
      (.execute "unknown", [("h", freshRow "ls" 7)]) :=
  nonstandard_policy_executes_immediately (fun _ => "h") [] "ls" 7 "unknown"
    (by decide) (by decide) (by decide) (by decide) (by decide) (by decide)

/-- C3 (code bug): promotion can never happen.  `Registry.PromotePolicy`
prepares `SELECT … FOR UPDATE`, which SQLite rejects with a syntax error, so
a row meeting every condition of the claim — `ls -la` under policy `ask`,
20/20 successes, a recent execution, risk 0.3 (below 0.5, let alone 0.7),
no dangerous-pattern match — makes `CheckAutoEvolution` return the wrapped
lock error and change nothing.  At risk 0.6 (`rm x`, still below the
claimed 0.7 bound) the promotion attempt is not even made:
`ShouldPromoteToAutoApprove` silently requires risk < 0.5, and the call
returns success with the row untouched. -/
theorem promotion_never_happens :
    checkAutoEvolution (fun _ => false) [("h", lowRiskAskRow)] "h" 200
      = (.error "failed to promote policy to auto_approve: failed to lock command for update: near \"FOR\": syntax error",
         [("h", lowRiskAskRow)])
    ∧ checkAutoEvolution (fun _ => false) [("h", midRiskAskRow)] "h" 200
      = (.ok (), [("h", midRiskAskRow)])
    ∧ CalculateRiskScore "ls -la" = 30
    ∧ CalculateRiskScore "rm x" = 60
    ∧ lowRiskAskRow.current_policy = some "ask"
    ∧ lowRiskAskRow.execution_count = 20 ∧ lowRiskAskRow.success_count = 20
    ∧ midRiskAskRow.current_policy = some "ask"
    ∧ midRiskAskRow.promoted_at = none := by
  decide

/-- An `ask` command with `duplicate_threshold_ms = 2000` whose previous
execution was recorded at unix second 1000. -/
def askRowSeededTs : CommandRow :=
  { freshRow "echo x" 0 with
      current_policy := some "ask"
      duplicate_threshold_ms := some 2000
      last_100_timestamps := some "1000" }

/-- The same command with no recorded timestamp — the only state the code
itself can produce, since `UpdateExecution` never succeeds in writing one. -/
def askRowNoTs : CommandRow :=
  { freshRow "echo x" 0 with
      current_policy := some "ask"
      duplicate_threshold_ms := some 2000 }

/-- C7 (code bug): the claimed duplicate-detection scenario cannot happen as
specified.  (i) Executing the command (here forced) reaches the executor,
but (ii) the bookkeeping `UpdateExecution` fails scanning the NULL
`last_100_timestamps` of every row `GetOrCreateCommand` creates, so no
timestamp is recorded and (iii) the second call 500 ms later answers
`pending_validation`, not the claimed `duplicate_warning`.  (iv) Even with a
previous-execution timestamp seeded into the row, the response carries
`seconds_since_last` as the whole-second difference 0 — not a fraction in
[0.4, 0.6]. -/
theorem duplicate_detection_diverges :
    (handleExecuteBash (fun _ => "h") [("h", askRowNoTs)] "echo x" true 1000).1
      = .execute "ask"
    ∧ updateExecution [("h", askRowNoTs)] "h" 0 500 1000
      = .error "failed to query command stats: converting NULL to string is unsupported"
    ∧ (handleExecuteBash (fun _ => "h") [("h", askRowNoTs)] "echo x" false 1000).1
      = .pendingValidation "echo x" "ask" 30
    ∧ (handleExecuteBash (fun _ => "h") [("h", askRowSeededTs)] "echo x" false 1000).1
      = .duplicateWarning "echo x" 0
    ∧ (handleExecuteBash (fun _ => "h") [("h", askRowSeededTs)] "echo x" false 1001).1
      = .duplicateWarning "echo x" 1
    ∧ (handleExecuteBash (fun _ => "h") [("h", askRowSeededTs)] "echo x" false 1002).1
      = .pendingValidation "echo x" "ask" 30 := by
  decide

/-- An empty lifecycle state. -/
def emptyLoopState : LoopState :=
  { blocks := [], refinements := [], processed_log := [], fileWrites := [],
    sqlExecs := [] }

/-- The lifecycle state after one `MarkProcessed("h1", "commit", "r1")` at
unix second 5. -/
def loggedOnceState : LoopState :=
  { emptyLoopState with processed_log := [("h1", ⟨"commit", 5, "r1"⟩)] }

/-- C8 (code bug): `MarkProcessed` is a bare INSERT on the `processed_log`
primary key: the first call records the row, and a second call with the same
hash returns the UNIQUE-constraint error instead of succeeding as a no-op.
The stored result_json is unchanged — only the "second call succeeds"
half of the idempotency contract fails. -/
theorem markProcessed_second_call_errors :
    markProcessed emptyLoopState "h1" "commit" "r1" 5 = .ok loggedOnceState
    ∧ markProcessed loggedOnceState "h1" "commit" "r2" 6
      = .error "UNIQUE constraint failed: processed_log.hash"
    ∧ (assocFind loggedOnceState.processed_log "h1").map (fun r => r.result_json)
      = some "r1" := by
  decide

/-- A pending `go` block of session `s1` targeting `/tmp/a.txt`. -/
def pendingGoBlock : BlockRow :=
  { session_id := "s1", description := "d", type := "go",
    target := "/tmp/a.txt", code := none, iterations := 0, status := "pending",
    generated_at := 0, last_refined_at := none, committed_at := none }

/-- A session with the single block `b1`. -/
def oneBlockState : LoopState :=
  { blocks := [("b1", pendingGoBlock)], refinements := [], processed_log := [],
    fileWrites := [], sqlExecs := [] }

/-- A deterministic generation capability: the temperature-0.1 pass always
returns the same code, as the claim's "same final_code" stipulates. -/
def constGen : String → String → Nat → String := fun _ _ _ => "CODE"

/-- The first and second commits of the same `(session_id, block_id)`. -/
def commitOnce : Except String CommitResponseData × LoopState :=
  commit constGen (fun s => s) oneBlockState "s1" "b1" 10

def commitTwice : Except String CommitResponseData × LoopState :=
  commit constGen (fun s => s) commitOnce.2 "s1" "b1" 20

/-- C2 (code bug): `Manager.Commit` applies the side effect *before*
consulting the ledger and never calls `IsProcessed`: recommitting the same
block with the same final code writes the file a second time, then fails on
the `processed_log` primary key and returns that error — not the first
commit's recorded result.  Only the "exactly one processed_log row" third of
the claim holds. -/
theorem commit_side_effect_applied_twice :
    commitOnce.1.isOk = true
    ∧ commitOnce.2.fileWrites = [("/tmp/a.txt", "CODE")]
    ∧ commitTwice.1
      = .error "failed to mark processed: UNIQUE constraint failed: processed_log.hash"
    ∧ commitTwice.2.fileWrites = [("/tmp/a.txt", "CODE"), ("/tmp/a.txt", "CODE")]
    ∧ commitTwice.2.processed_log.length = 1 := by
  decide

/-! ### Invariant preservation for the auto-approve rows (C5) -/

lemma rowOk_of_fields_eq (matcher : String → Bool) (r r' : CommandRow)
    (hpol : r'.current_policy = r.current_policy)
    (hprom : r'.promoted_at = r.promoted_at)
    (htext : r'.command_text = r.command_text)
    (hok : RowOk matcher r) : RowOk matcher r' := by
  intro h
  rw [hpol] at h
  rcases hok h with ⟨h1, h2⟩
  exact ⟨by rw [hprom]; exact h1, by rw [htext]; exact h2⟩

lemma regInvariant_getOrCreate (matcher : String → Bool) (H : String → String)
    (st : RegistryState) (text : String) (now : Int)
    (hinv : RegInvariant matcher st) :
    RegInvariant matcher (getOrCreateCommand H st text now).2 := by
  cases hfind : assocFind st (H text) with
  | some row =>
    simp only [getOrCreateCommand, hfind]
    exact hinv
  | none =>
    simp only [getOrCreateCommand, hfind]
    intro h row hf
    rcases assocFind_cons_cases hf with hrow | hrest
    · subst hrow
      intro hpol
      simp [freshRow] at hpol
    · exact hinv h row hrest

lemma regInvariant_updateExecution (matcher : String → Bool)
    (st st' : RegistryState) (hash : String) (ec : Int) (dur : Nat) (now : Int)
    (hup : updateExecution st hash ec dur now = .ok st')
    (hinv : RegInvariant matcher st) : RegInvariant matcher st' := by
  cases hfind : assocFind st hash with
  | none =>
    unfold updateExecution at hup
    rw [hfind] at hup
    exact Except.noConfusion hup
  | some row =>
    unfold updateExecution at hup
    simp only [hfind] at hup
    cases hts : row.last_100_timestamps with
    | none =>
      rw [hts] at hup
      exact Except.noConfusion hup
    | some tsStr =>
      simp only [hts, Except.ok.injEq] at hup
      subst hup
      intro h row' hf
      rw [assocFind_updateRow] at hf
      by_cases hh : h = hash
      · rw [if_pos hh] at hf
        cases hfind2 : assocFind st h with
        | none =>
          rw [hfind2] at hf
          exact Option.noConfusion hf
        | some row0 =>
          rw [hfind2] at hf
          have hrow := (Option.some.inj hf).symm
          subst hrow
          exact rowOk_of_fields_eq matcher row0 _ rfl rfl rfl
            (hinv h row0 hfind2)
      · rw [if_neg hh] at hf
        exact hinv h row' hf

lemma regInvariant_promotePolicy (matcher : String → Bool)
    (st st' : RegistryState) (hash newPolicy reason : String) (now : Int)
    (hp : promotePolicy matcher st hash newPolicy reason now = .ok st')
    (_hinv : RegInvariant matcher st) : RegInvariant matcher st' :=
  Except.noConfusion hp

lemma regInvariant_setPolicyOverride (matcher : String → Bool)
    (st : RegistryState) (hash policy reason : String) (now : Int)
    (hinv : RegInvariant matcher st) :
    RegInvariant matcher (setPolicy st hash policy reason true now) := by
  unfold setPolicy
  rw [if_pos rfl]
  intro h row' hf
  rw [assocFind_updateRow] at hf
  by_cases hh : h = hash
  · rw [if_pos hh] at hf
    cases hfind2 : assocFind st h with
    | none =>
      rw [hfind2] at hf
      exact Option.noConfusion hf
    | some row0 =>
      rw [hfind2] at hf
      have hrow := (Option.some.inj hf).symm
      subst hrow
      exact rowOk_of_fields_eq matcher row0 _ rfl rfl rfl (hinv h row0 hfind2)
  · rw [if_neg hh] at hf
    exact hinv h row' hf

lemma checkAutoEvolution_snd_cases (matcher : String → Bool)
    (st : RegistryState) (hash : String) (now : Int) :
    (checkAutoEvolution matcher st hash now).2 = st
    ∨ ∃ st1, promotePolicy matcher st hash "auto_approve"
        "Auto: 20+ exec, 95%+ success" now = .ok st1
      ∧ (checkAutoEvolution matcher st hash now).2 = st1 := by
  cases hstats : getCommandStats st hash with
  | error e =>
    simp only [checkAutoEvolution, hstats]
    exact Or.inl trivial
  | ok stats =>
    simp only [checkAutoEvolution, hstats]
    by_cases hgate : stats.riskScore ≥ 70
    · rw [if_pos hgate]; exact Or.inl rfl
    · rw [if_neg hgate]
      cases hsp : shouldPromoteToAutoApprove stats now
      · cases hmon : detectMonitoringPattern stats.executionTimestamps
            && decide (stats.executionCount ≥ 50)
        · exact Or.inl (ruleThree_preserves_state st stats)
        · exact Or.inl rfl
      · cases hpr : promotePolicy matcher st hash "auto_approve"
            "Auto: 20+ exec, 95%+ success" now with
        | error e => exact Or.inl rfl
        | ok st1 =>
          refine Or.inr ⟨st1, rfl, ?_⟩
          cases hmon : detectMonitoringPattern stats.executionTimestamps
              && decide (stats.executionCount ≥ 50)
          · exact ruleThree_preserves_state st1 stats
          · rfl

lemma regInvariant_checkAutoEvolution (matcher : String → Bool)
    (st : RegistryState) (hash : String) (now : Int)
    (hinv : RegInvariant matcher st) :
    RegInvariant matcher (checkAutoEvolution matcher st hash now).2 := by
  rcases checkAutoEvolution_snd_cases matcher st hash now with heq | ⟨st1, hpr, heq⟩
  · rw [heq]; exact hinv
  · rw [heq]; exact regInvariant_promotePolicy matcher st st1 _ _ _ _ hpr hinv

lemma regInvariant_applyRegOp (matcher : String → Bool) (H : String → String)
    (st : RegistryState) (op : RegOp) (hinv : RegInvariant matcher st) :
    RegInvariant matcher (applyRegOp matcher H st op) := by
  cases op with
  | getOrCreate text now => exact regInvariant_getOrCreate matcher H st text now hinv
  | update hash ec dur now =>
    show RegInvariant matcher
      (match updateExecution st hash ec dur now with
       | .ok st' => st'
       | .error _ => st)
    cases hup : updateExecution st hash ec dur now with
    | ok st' => exact regInvariant_updateExecution matcher st st' hash ec dur now hup hinv
    | error e => exact hinv
  | promote hash newPolicy reason now =>
    show RegInvariant matcher
      (match promotePolicy matcher st hash newPolicy reason now with
       | .ok st' => st'
       | .error _ => st)
    cases hpr : promotePolicy matcher st hash newPolicy reason now with
    | ok st' => exact regInvariant_promotePolicy matcher st st' hash newPolicy reason now hpr hinv
    | error e => exact hinv
  | autoEvolve hash now => exact regInvariant_checkAutoEvolution matcher st hash now hinv
  | overrideSet hash policy reason now =>
    exact regInvariant_setPolicyOverride matcher st hash policy reason now hinv

/-- C5 (amended): along every sequence of `GetOrCreateCommand`,
`UpdateExecution`, `PromotePolicy`, `CheckAutoEvolution` and
`SetPolicy`-with-`isOverride = true` operations from an empty registry, every
row with `current_policy = 'auto_approve'` has `promoted_at` set and a
command text clear of the dangerous-pattern set (`matcher` abstracts
`MatchesDangerousPattern`).  `SetPolicy` with `isOverride = false` is
excluded: it breaks the invariant (see the counterexample). -/
theorem auto_approve_rows_promoted_and_clean (matcher : String → Bool)
    (H : String → String) (ops : List RegOp) :
    RegInvariant matcher (applyRegOps matcher H [] ops) := by
  have hgen : ∀ st, RegInvariant matcher st →
      RegInvariant matcher (applyRegOps matcher H st ops) := by
    induction ops with
    | nil => intro st h; exact h
    | cons op rest ih =>
      intro st h
      exact ih _ (regInvariant_applyRegOp matcher H st op h)
  exact hgen [] (by intro h row hf; simp [assocFind] at hf)

/-- The registry after registering a command and then
`SetPolicy(hash, "auto_approve", "trusted command", isOverride = false)` —
the exact sequence of the repository's own `TestSetPolicy`. -/
def setPolicyState : RegistryState :=
  setPolicy ((getOrCreateCommand (fun _ => "h") [] "grep pattern file.txt" 1).2)
    "h" "auto_approve" "trusted command" false 2

/-- The row that sequence produces. -/
def setPolicyRow : CommandRow :=
  { freshRow "grep pattern file.txt" 1 with
      current_policy := some "auto_approve"
      policy_reason := some "trusted command"
      policy_last_updated := some 2
      updated_at := 2 }

/-- C5 (counterexample): `SetPolicy` with `isOverride = false` writes
`current_policy = 'auto_approve'` directly, with no `promoted_at` and no
dangerous-pattern check, so the claimed invariant fails after a two-operation
sequence. -/
theorem setPolicy_breaks_auto_approve_invariant :
    (assocFind setPolicyState "h").map (fun r => (r.current_policy, r.promoted_at))
      = some (some "auto_approve", none)
    ∧ ¬ RegInvariant (fun _ => false) setPolicyState := by
  refine ⟨by decide, ?_⟩
  intro hinv
  have h := hinv "h" setPolicyRow (by decide)
  exact (h rfl).1 rfl

/-! ### Commit generation input (C10) -/

lemma markProcessed_preserves_fileWrites (st st' : LoopState)
    (hash op json : String) (now : Int)
    (h : markProcessed st hash op json now = .ok st') :
    st'.fileWrites = st.fileWrites := by
  unfold markProcessed at h
  cases hpl : assocFind st.processed_log hash with
  | some r =>
    rw [hpl] at h
    exact Except.noConfusion h
  | none =>
    rw [hpl] at h
    have hst := (Except.ok.inj h).symm
    subst hst
    rfl

lemma commitFinalize_preserves_fileWrites (st2 : LoopState)
    (blockID finalCode outputPath : String) (now : Int) :
    (commitFinalize st2 blockID finalCode outputPath now).2.fileWrites
      = st2.fileWrites := by
  cases hfb : assocFind (updateBlockCode (commitBlock st2 blockID now)
      blockID finalCode now).blocks blockID with
  | none =>
    simp only [commitFinalize, hfb]
    rfl
  | some committed =>
    simp only [commitFinalize, hfb]
    rfl

/-- What `Commit` writes for a file-backed block: the newest `fileWrites`
entry is always `(target, gen description type 0.1)`, regardless of whether
the ledger insert then succeeds or collides. -/
lemma commit_writes_generated_file (gen : String → String → Nat → String)
    (H : String → String) (st : LoopState) (sessionID blockID : String)
    (now : Int) (b : BlockRow)
    (hfind : assocFind st.blocks blockID = some b)
    (hsess : b.session_id = sessionID)
    (hty : b.type = "go" ∨ b.type = "python" ∨ b.type = "code") :
    (commit gen H st sessionID blockID now).2.fileWrites =
      (b.target, gen b.description b.type 10) :: st.fileWrites := by
  have hsql : ¬b.type = "sql" := by
    rcases hty with h | h | h <;> rw [h] <;> decide
  have hse : commitSideEffect st b (gen b.description b.type 10) =
      .ok (b.target, { st with fileWrites :=
        (b.target, gen b.description b.type 10) :: st.fileWrites }) := by
    unfold commitSideEffect
    rw [if_neg hsql, if_pos hty]
  unfold commit
  simp only [hfind, if_neg (show ¬(b.session_id ≠ sessionID) from by simp [hsess]), hse]
  split
  · rfl
  · rename_i st2 hmp
    rw [commitFinalize_preserves_fileWrites,
      markProcessed_preserves_fileWrites _ _ _ _ _ _ hmp]

/-- C10: the final generation `Commit` performs uses the block's original
description (and type) alone: the code written by earlier `Refine` calls and
the recorded feedback are not part of the commit-time generation input, so a
refinement leaves the committed output unchanged. -/
theorem commit_generation_ignores_refinements
    (gen : String → String → Nat → String) (H : String → String)
    (st : LoopState) (sessionID blockID feedback : String)
    (nowR nowC : Int) (b : BlockRow)
    (hfind : assocFind st.blocks blockID = some b)
    (hsess : b.session_id = sessionID)
    (hty : b.type = "go" ∨ b.type = "python" ∨ b.type = "code") :
    (commit gen H (refine gen st sessionID blockID feedback nowR).2
        sessionID blockID nowC).2.fileWrites.head?
      = some (b.target, gen b.description b.type 10)
    ∧ (commit gen H st sessionID blockID nowC).2.fileWrites.head?
      = some (b.target, gen b.description b.type 10) := by
  have hstR : (refine gen st sessionID blockID feedback nowR).2 =
      updateBlockCode (addRefinement st blockID feedback
        (gen (refinedPrompt b.description (b.code.getD "") feedback) b.type 30) 30 nowR)
        blockID (gen (refinedPrompt b.description (b.code.getD "") feedback) b.type 30)
        nowR := by
    unfold refine
    simp only [hfind, if_neg (show ¬(b.session_id ≠ sessionID) from by simp [hsess])]
  have hfindR : assocFind (refine gen st sessionID blockID feedback nowR).2.blocks
      blockID = some { b with
        code := some (gen (refinedPrompt b.description (b.code.getD "") feedback) b.type 30),
        iterations := b.iterations + 1, last_refined_at := some nowR } := by
    rw [hstR]
    have hblocks : (updateBlockCode (addRefinement st blockID feedback
        (gen (refinedPrompt b.description (b.code.getD "") feedback) b.type 30) 30 nowR)
        blockID (gen (refinedPrompt b.description (b.code.getD "") feedback) b.type 30)
        nowR).blocks
        = updateRow st.blocks blockID (fun b0 => { b0 with
            code := some (gen (refinedPrompt b.description (b.code.getD "") feedback) b.type 30),
            iterations := b0.iterations + 1, last_refined_at := some nowR }) := rfl
    rw [hblocks, assocFind_updateRow, if_pos rfl, hfind]
    rfl
  constructor
  · rw [commit_writes_generated_file gen H _ sessionID blockID nowC _ hfindR hsess hty]
    rfl
  · rw [commit_writes_generated_file gen H st sessionID blockID nowC b hfind hsess hty]
    rfl

/-- A generation capability whose output records its entire prompt and
temperature, making any influence of refinements on the commit visible. -/
def descGen : String → String → Nat → String :=
  fun prompt codeType temperature =>
    prompt ++ ":" ++ codeType ++ ":" ++ toString temperature

/-- C10 (witness): committing block `b1` after one refinement writes exactly
the temperature-0.1 generation of the original description `d`. -/
theorem commit_ignores_refinements_witness :
    (commit descGen (fun s => s)
        (refine descGen oneBlockState "s1" "b1" "use tabs" 1).2
        "s1" "b1" 2).2.fileWrites.head?
      = some ("/tmp/a.txt", descGen "d" "go" 10) :=
  (commit_generation_ignores_refinements descGen (fun s => s) oneBlockState
    "s1" "b1" "use tabs" 1 2 pendingGoBlock (by decide) (by decide) (by decide)).1

end BrainLoop
